import Mathlib

/-!
Verification of the tapalcatl metatile dissection gateway.

This file gives a shallow embedding, in Lean 4, of the parts of the Go
source that the checked properties talk about:

* the tile algebra (`TileCoord`, `IsPowerOfTwo`, `sizeToZoom`,
  `TileCoord.MetaAndOffset`, `TileCoord.FileName` — from
  pkg/tile/metatile.go);
* the metatile ZIP member lookup (`NewMetatileReader`);
* the request parsers (`parseHTTPDates`, `ParseCondition`,
  `MetatileMuxParser.Parse` — from pkg/handler);
* the metatile handler's extraction stage
  (`extractVectorTileFromMetatile`, `writeVectorTileResponse` — from
  pkg/handler/metatile.go);
* the cache-aware S3 storage adapter (`respondWithKey`, `TileJson` —
  from pkg/storage);
* the vector-tile cache codec (`marshallVectorTileData`,
  `unmarshallVectorTileData` — from pkg/cache).

Conventions of the embedding:

* Go `int` / `int64` values are modelled as `Int`.  All arithmetic the
  embedded code performs on coordinates stays far inside the 64-bit
  range for 64-bit inputs (right shifts shrink magnitudes and the
  re-multiplication `meta.X << deltaZ` is bounded by the original
  coordinate), so no wrap-around modelling is needed there; `uint`
  bit-twiddling in `sizeToZoom` is modelled on `Nat`, which agrees with
  64-bit unsigned semantics because no operation there can exceed the
  input's magnitude.
* Go's `>>` on a signed int is an arithmetic (sign-preserving) shift,
  i.e. floor division by a power of two: it is modelled as `Int.fdiv x
  (2 ^ n)`.  Go's `<<` is multiplication by a power of two.
* Byte slices are modelled as `List Nat`, fallible calls as `Except`.
* Calls into code that is not part of this repository (the Go standard
  library's `time.Parse`, `strconv.Atoi`, `crypto/md5`, the AWS S3
  client, the cache backends) are modelled as explicit function
  parameters ("oracles"), so theorems quantify over their behaviour.
-/

deriving instance DecidableEq for Except

namespace Tapalcatl

/-- `TileCoord` from pkg/tile/metatile.go: `Z, X, Y int; Format string`. -/
structure TileCoord where
  z : Int
  x : Int
  y : Int
  format : String
deriving DecidableEq, Repr

/-- `FileName` from pkg/tile/metatile.go:
`fmt.Sprintf("%d/%d/%d.%s", t.Z, t.X, t.Y, t.Format)`. -/
def TileCoord.FileName (t : TileCoord) : String :=
  toString t.z ++ "/" ++ toString t.x ++ "/" ++ toString t.y ++ "." ++ t.format

/-- `IsPowerOfTwo` from pkg/tile/metatile.go:
`if i > 0 { return (i & (i - 1)) == 0 }; return false`.
For `i > 0` the Go `&` on int agrees with `Nat` bitwise-and on the
corresponding naturals. -/
def IsPowerOfTwo (i : Int) : Bool :=
  if i > 0 then (i.toNat &&& (i - 1).toNat) == 0 else false

/-- One iteration of the loop body of `sizeToZoom`
(`if (v & b[i]) != 0 { v >>= S[i]; r |= S[i] }`). -/
def sizeToZoomStep (bi si : Nat) (vr : Nat × Nat) : Nat × Nat :=
  if vr.1 &&& bi != 0 then (vr.1 >>> si, vr.2 ||| si) else vr

/-- `sizeToZoom` from pkg/tile/metatile.go, with the loop over
`i = 4, 3, 2, 1, 0` unrolled.  The source's tables are
`b = {0x2, 0xC, 0xF0, 0xFF00, 0xFFFF0000}` and `S = {1, 2, 3, 4, 16}`,
so the iterations pair `(0xFFFF0000, 16)`, `(0xFF00, 4)`, `(0xF0, 3)`,
`(0xC, 2)`, `(0x2, 1)`. -/
def sizeToZoom (v : Nat) : Nat :=
  let p := (v, 0)
  let p := sizeToZoomStep 0xFFFF0000 16 p
  let p := sizeToZoomStep 0xFF00 4 p
  let p := sizeToZoomStep 0xF0 3 p
  let p := sizeToZoomStep 0xC 2 p
  let p := sizeToZoomStep 0x2 1 p
  p.2

/-- `MetaAndOffset(metaSize, tileSize int)` from pkg/tile/metatile.go.
The Go function returns `(meta, offset TileCoord, err error)`; it is
modelled as `Except String (TileCoord × TileCoord)` carrying the source's
error messages. -/
def TileCoord.MetaAndOffset (t : TileCoord) (metaSize tileSize : Int) :
    Except String (TileCoord × TileCoord) :=
  if !IsPowerOfTwo metaSize then
    .error ("Metatile size is required to be a power of two, but " ++
      toString metaSize ++ " is not.")
  else if !IsPowerOfTwo tileSize then
    .error ("Tile size is required to be a power of two, but " ++
      toString tileSize ++ " is not.")
  else
    let metaZoom := sizeToZoom metaSize.toNat
    let tileZoom := sizeToZoom tileSize.toNat
    if tileZoom > metaZoom then
      .error ("Tile size must not be greater than metatile size, but " ++
        toString tileSize ++ " > " ++ toString metaSize ++ ".")
    else
      let deltaZ := metaZoom - tileZoom
      let iDeltaZ : Int := (deltaZ : Int)
      if t.z < iDeltaZ then
        .ok ({ z := 0, x := 0, y := 0, format := "zip" },
             { z := 0, x := 0, y := 0, format := t.format })
      else
        let meta : TileCoord :=
          { z := t.z - iDeltaZ
            x := Int.fdiv t.x (2 ^ deltaZ)
            y := Int.fdiv t.y (2 ^ deltaZ)
            format := "zip" }
        let offset : TileCoord :=
          { z := t.z - meta.z
            x := t.x - meta.x * 2 ^ deltaZ
            y := t.y - meta.y * 2 ^ deltaZ
            format := t.format }
        .ok (meta, offset)

/-- `Condition` from pkg/storage (storage.go):
`IfModifiedSince *time.Time; IfNoneMatch *string`.  Timestamps are
modelled as `Int` (Unix nanoseconds). -/
structure Condition where
  ifModifiedSince : Option Int := none
  ifNoneMatch : Option String := none
deriving DecidableEq, Repr

/-- `HttpRequestData` from pkg/state. -/
structure HttpRequestData where
  path : String := ""
  apiKey : String := ""
  userAgent : String := ""
  referrer : String := ""
deriving DecidableEq, Repr

/-- `ReqResponseState` from pkg/state (an `int32` enum; the listed
constants are `Nil, Success, NotModified, NotFound, BadRequest, Error,
Count`). -/
inductive ReqResponseState where
  | nil
  | success
  | notModified
  | notFound
  | badRequest
  | err
  | count
deriving DecidableEq, Repr

/-- `ReqFetchState` from pkg/state. -/
inductive ReqFetchState where
  | nil
  | success
  | notFound
  | fetchError
  | readError
  | configError
  | count
deriving DecidableEq, Repr

/-- `ReqFetchSize` from pkg/state. -/
structure ReqFetchSize where
  bodySize : Int := 0
  bytesLength : Int := 0
  bytesCap : Int := 0
deriving DecidableEq, Repr

/-- `ReqStorageMetadata` from pkg/state. -/
structure ReqStorageMetadata where
  hasLastModified : Bool := false
  hasEtag : Bool := false
deriving DecidableEq, Repr

/-- `ReqCacheData` from pkg/state. -/
structure ReqCacheData where
  vectorCacheHit : Bool := false
deriving DecidableEq, Repr

/-- `RequestState` from pkg/state.  The `Duration` sub-record holds
wall-clock stage timings and is not modelled. -/
structure RequestState where
  responseState : ReqResponseState := .nil
  fetchState : ReqFetchState := .nil
  fetchSize : ReqFetchSize := {}
  storageMetadata : ReqStorageMetadata := {}
  cache : ReqCacheData := {}
  isZipError : Bool := false
  isResponseWriteError : Bool := false
  isCondError : Bool := false
  isCacheLookupError : Bool := false
  coord : Option TileCoord := none
  format : String := ""
  responseSize : Int := 0
deriving DecidableEq, Repr

/-- `VectorTileResponseData` from pkg/state: `ContentType string;
LastModified *time.Time; ETag *string; ResponseState ReqResponseState;
Data []byte`. -/
structure VectorTileResponseData where
  contentType : String := ""
  lastModified : Option Int := none
  etag : Option String := none
  responseState : ReqResponseState := .nil
  data : List Nat := []
deriving DecidableEq, Repr

/-- `ParseResultType` from pkg/state. -/
inductive ParseResultType where
  | nil
  | metatile
  | tilejson
deriving DecidableEq, Repr

/-- `ParseResult` from pkg/state, with the metatile variant's
`AdditionalData` (`MetatileParseData{Coord}`) inlined as `coord`. -/
structure ParseResult where
  type : ParseResultType := .nil
  cond : Condition := {}
  contentType : String := ""
  httpData : HttpRequestData := {}
  buildID : String := ""
  coord : TileCoord := ⟨0, 0, 0, ""⟩
deriving DecidableEq, Repr

/-! ### Date and condition parsing (pkg/handler/parse.go)

`time.Parse` belongs to the Go standard library, so it is modelled as an
oracle `TimeParser` mapping a layout string and a date string to either a
timestamp or an error (`time.Parse` is a pure function of its two
arguments).  The layout constants are the Go standard library's. -/

/-- A model of `time.Parse`: layout → value → timestamp or error. -/
def TimeParser : Type := String → String → Except String Int

/-- Go's `http.TimeFormat`. -/
def httpTimeFormat : String := "Mon, 02 Jan 2006 15:04:05 GMT"

/-- Go's `time.RFC1123`. -/
def rfc1123 : String := "Mon, 02 Jan 2006 15:04:05 MST"

/-- Go's `time.RFC1123Z`. -/
def rfc1123Z : String := "Mon, 02 Jan 2006 15:04:05 -0700"

/-- Go's `time.RFC822`. -/
def rfc822 : String := "02 Jan 06 15:04 MST"

/-- Go's `time.RFC822Z`. -/
def rfc822Z : String := "02 Jan 06 15:04 -0700"

/-- Go's `time.RFC850`. -/
def rfc850 : String := "Monday, 02-Jan-06 15:04:05 MST"

/-- Go's `time.ANSIC`. -/
def ansic : String := "Mon Jan _2 15:04:05 2006"

/-- The `timeLayouts` slice of `parseHTTPDates`, in source order. -/
def timeLayouts : List String :=
  [httpTimeFormat, rfc1123, rfc1123Z, rfc822, rfc822Z, rfc850, ansic]

/-- The `for _, layout := range timeLayouts` loop of `parseHTTPDates`:
returns the timestamp of the first layout that parses, else `none`. -/
def tryLayouts (tp : TimeParser) (date : String) : List String → Option Int
  | [] => none
  | layout :: rest =>
    match tp layout date with
    | .ok ts => some ts
    | .error _ => tryLayouts tp date rest

/-- `parseHTTPDates` from pkg/handler/parse.go.  The Go function returns
`(*time.Time, error)`; after the loop fails it re-parses with
`http.TimeFormat` and returns `nil` plus that error. -/
def parseHTTPDates (tp : TimeParser) (date : String) : Option Int × Option String :=
  match tryLayouts tp date timeLayouts with
  | some ts => (some ts, none)
  | none =>
    match tp httpTimeFormat date with
    | .ok _ => (none, none)
    | .error e => (none, some e)

/-- `ParseCondition` from pkg/handler/parse.go, as a function of the
`If-None-Match` and `If-Modified-Since` header values (`""` when the
header is absent, as `req.Header.Get` returns).  The second component
models the `*CondParseError` (its `IfModifiedSinceError` payload). -/
def ParseCondition (tp : TimeParser) (ifNoneMatchHeader ifModifiedSinceHeader : String) :
    Condition × Option String :=
  let result : Condition := {}
  let result :=
    if ifNoneMatchHeader != "" then { result with ifNoneMatch := some ifNoneMatchHeader }
    else result
  if ifModifiedSinceHeader != "" then
    let parsed := parseHTTPDates tp ifModifiedSinceHeader
    match parsed.2 with
    | some e => ({ result with ifModifiedSince := parsed.1 }, some e)
    | none => ({ result with ifModifiedSince := parsed.1 }, none)
  else (result, none)

/-- `CoordParseError` from pkg/handler/parse.go. -/
structure CoordParseError where
  badZ : String := ""
  badX : String := ""
  badY : String := ""
deriving DecidableEq, Repr

/-- `CoordParseError.IsError`. -/
def CoordParseError.IsError (c : CoordParseError) : Bool :=
  c.badZ != "" || c.badX != "" || c.badY != ""

/-- `ParseError` from pkg/handler/parse.go: at most one of the three
sub-errors is set.  `mimeErr` carries `MimeParseError.BadFormat`,
`condErr` carries `CondParseError.IfModifiedSinceError`. -/
structure ParseError where
  mimeErr : Option String := none
  coordErr : Option CoordParseError := none
  condErr : Option String := none
deriving DecidableEq, Repr

/-- The request attributes `MetatileMuxParser.Parse` consumes: the mux
path variables, the `buildid` query parameter, the two conditional
headers (empty string when absent) and the data `ParseHttpData`
extracts. -/
structure RequestModel where
  varZ : String := ""
  varX : String := ""
  varY : String := ""
  varFmt : String := ""
  buildID : String := ""
  ifNoneMatchHeader : String := ""
  ifModifiedSinceHeader : String := ""
  httpData : HttpRequestData := {}
deriving DecidableEq, Repr

/-- `MetatileMuxParser.Parse` from pkg/handler/metatile.go.
`strconv.Atoi` (Go standard library) is the oracle `atoi`; on failure the
Go call leaves the coordinate at `0` and the offending string is recorded
in the `CoordParseError`.  The `MimeMap` is modelled as a partial map. -/
def MetatileMuxParse (atoi : String → Except String Int) (tp : TimeParser)
    (mimeMap : String → Option String) (req : RequestModel) :
    ParseResult × Option ParseError :=
  let parseResult : ParseResult := { type := .metatile, httpData := req.httpData }
  match mimeMap req.varFmt with
  | none => (parseResult, some { mimeErr := some req.varFmt })
  | some contentType =>
    let parseResult := { parseResult with contentType := contentType }
    let parseResult := { parseResult with buildID := req.buildID }
    let zr := match atoi req.varZ with | .ok n => (n, "") | .error _ => (0, req.varZ)
    let xr := match atoi req.varX with | .ok n => (n, "") | .error _ => (0, req.varX)
    let yr := match atoi req.varY with | .ok n => (n, "") | .error _ => (0, req.varY)
    let parseResult :=
      { parseResult with coord := ⟨zr.1, xr.1, yr.1, req.varFmt⟩ }
    let coordError : CoordParseError := { badZ := zr.2, badX := xr.2, badY := yr.2 }
    if coordError.IsError then
      (parseResult, some { coordErr := some coordError })
    else
      let condParsed := ParseCondition tp req.ifNoneMatchHeader req.ifModifiedSinceHeader
      let parseResult := { parseResult with cond := condParsed.1 }
      match condParsed.2 with
      | some e => (parseResult, some { condErr := some e })
      | none => (parseResult, none)

/-! ### Metatile ZIP reader (pkg/tile/metatile.go)

`archive/zip` is the Go standard library; a successfully parsed archive
is modelled as the list of its entries (in central-directory order), and
`zip.NewReader` as an oracle producing that list or a parse error.  An
entry carries the observable behaviour of its member: the `Open` error
if any, the result of draining the opened stream, the `Close` error if
any, and the declared `UncompressedSize64`. -/

/-- One member of a parsed ZIP archive. -/
structure ZipEntry where
  name : String
  uncompressedSize : Nat := 0
  openErr : Option String := none
  read : Except String (List Nat) := .ok []
  closeErr : Option String := none
deriving DecidableEq, Repr

/-- The stream `NewMetatileReader` hands back: draining it yields the
member bytes (or a decode error), and closing it may fail. -/
structure ZipStream where
  read : Except String (List Nat)
  closeErr : Option String
deriving DecidableEq, Repr

/-- The `for _, f := range z.File` loop of `NewMetatileReader`: the first
entry whose name is (exactly, case-sensitively) equal to the target is
opened and returned with its declared uncompressed size; when no entry
matches, the error message names the target (Go's `%#v` renders the
string quoted). -/
def findInZip (target : String) : List ZipEntry → Except String (ZipStream × Nat)
  | [] =>
    .error ("Unable to find relative tile offset \"" ++ target ++ "\" in metatile.")
  | f :: fs =>
    if f.name == target then
      match f.openErr with
      | some e => .error e
      | none => .ok ({ read := f.read, closeErr := f.closeErr }, f.uncompressedSize)
    else findInZip target fs

/-- `NewMetatileReader` from pkg/tile/metatile.go.  Its first step,
`zip.NewReader(r, size)`, is represented by the already-computed
`archive` argument (entries on success, the parser error on a malformed
buffer). -/
def NewMetatileReader (t : TileCoord) (archive : Except String (List ZipEntry)) :
    Except String (ZipStream × Nat) :=
  match archive with
  | .error e => .error e
  | .ok entries => findInZip t.FileName entries

/-! ### Storage response and the metatile handler's extraction stage
(pkg/storage/storage.go, pkg/handler/metatile.go)

The S3/file adapters are behind the `Storage` interface; the handler
only consumes `Fetch`.  `Fetch` and `zip.NewReader` are modelled as
oracles in `HandlerEnv`. -/

/-- `SuccessfulResponse` from pkg/storage: `Body io.ReadCloser;
LastModified *time.Time; ETag *string; Size uint64`.  Draining the body
stream yields bytes or a read error. -/
structure SuccessfulResponse where
  body : Except String (List Nat) := .ok []
  lastModified : Option Int := none
  etag : Option String := none
  size : Nat := 0
deriving DecidableEq, Repr

/-- `StorageResponse` from pkg/storage. -/
structure StorageResponse where
  response : Option SuccessfulResponse := none
  notModified : Bool := false
  notFound : Bool := false
deriving DecidableEq, Repr

/-- The handler's external collaborators: the storage adapter's `Fetch`
(arguments: metatile coordinate, condition, prefix override / build id)
and `zip.NewReader` over a fully buffered byte slice. -/
structure HandlerEnv where
  fetch : TileCoord → Condition → String → Except String StorageResponse
  zipRead : List Nat → Except String (List ZipEntry)

/-- The part of `extractVectorTileFromMetatile` that follows the
`stg.Fetch` call (pkg/handler/metatile.go lines 217-310), applied to the
fetch's outcome.  Returns the updated `RequestState`, the
`VectorTileResponseData`, and the returned error if any.

Note the ETag branch: the source sets
`reqState.StorageMetadata.HasLastModified = true` there (lines 245-248),
not `HasEtag`. -/
def extractFetchStage (env : HandlerEnv) (rs : RequestState) (rd : VectorTileResponseData)
    (offset : TileCoord) (fetched : Except String StorageResponse) :
    RequestState × VectorTileResponseData × Option String :=
  match fetched with
  | .error e =>
    ({ rs with fetchState := .fetchError, responseState := .err },
     { rd with responseState := .err },
     some ("metatile storage fetch failure: " ++ e))
  | .ok storageResult =>
    if storageResult.notFound then
      ({ rs with fetchState := .notFound, responseState := .notFound },
       { rd with responseState := .notFound }, none)
    else
      let rs := { rs with fetchState := .success }
      if storageResult.notModified then
        ({ rs with responseState := .notModified },
         { rd with responseState := .notModified }, none)
      else
        match storageResult.response with
        | none =>
          -- the source dereferences `storageResult.Response` here and
          -- would panic on nil; the storage adapters never produce a
          -- response that is neither a variant flag nor a success
          (rs, rd, some "nil storage response")
        | some storageResp =>
          let rd :=
            match storageResp.lastModified with
            | some lm => { rd with lastModified := some lm }
            | none => rd
          let rs :=
            match storageResp.lastModified with
            | some _ =>
              { rs with storageMetadata := { rs.storageMetadata with hasLastModified := true } }
            | none => rs
          let rd :=
            match storageResp.etag with
            | some e => { rd with etag := some e }
            | none => rd
          let rs :=
            match storageResp.etag with
            | some _ =>
              { rs with storageMetadata := { rs.storageMetadata with hasLastModified := true } }
            | none => rs
          match storageResp.body with
          | .error e =>
            ({ rs with fetchState := .readError, responseState := .err },
             { rd with responseState := .err },
             some ("failed to read storage body: " ++ e))
          | .ok storageBytes =>
            let rs :=
              { rs with fetchState := .success,
                        fetchSize := { bodySize := (storageBytes.length : Int),
                                       bytesLength := (storageBytes.length : Int),
                                       bytesCap := (storageBytes.length : Int) } }
            match NewMetatileReader offset (env.zipRead storageBytes) with
            | .error e =>
              ({ rs with isZipError := true, responseState := .err },
               { rd with responseState := .err },
               some ("failed to read metatile: " ++ e))
            | .ok (reader, formatSize) =>
              match reader.read with
              | .error e =>
                ({ rs with isZipError := true, responseState := .err },
                 { rd with responseState := .err },
                 some ("failed to read tile out of metatile: " ++ e))
              | .ok tileBytes =>
                match reader.closeErr with
                | some e =>
                  ({ rs with isZipError := true, responseState := .err },
                   { rd with responseState := .err },
                   some ("failed to close vector tile reader: " ++ e))
                | none =>
                  ({ rs with responseSize := (formatSize : Int) },
                   { rd with data := tileBytes }, none)

/-- `extractVectorTileFromMetatile` from pkg/handler/metatile.go.  The
buffer manager only shuttles bytes and is not modelled; the
`metatileMaxDetailZoom` argument is forwarded by the handler to
`MetaAndOffset`, whose two-parameter form is the one the tile package
provides, so it is accepted but unused here. -/
def extractVectorTileFromMetatile (env : HandlerEnv) (rs : RequestState) (pr : ParseResult)
    (metatileSize tileSize _metatileMaxDetailZoom : Int) :
    RequestState × VectorTileResponseData × Option String :=
  let rd : VectorTileResponseData := { contentType := pr.contentType }
  match pr.coord.MetaAndOffset metatileSize tileSize with
  | .error e =>
    ({ rs with responseState := .err },
     { rd with responseState := .err },
     some ("metaAndOffset could not be calculated: " ++ e))
  | .ok (metaCoord, offset) =>
    extractFetchStage env rs rd offset (env.fetch metaCoord pr.cond pr.buildID)

/-- `writeVectorTileResponse` from pkg/handler/metatile.go.  `fmtTime`
models `lastMod.UTC().Format(http.TimeFormat)` (Go standard library);
`writeErr` models the outcome of `rw.Write`.  Returns the updated
request state, the response headers, the status code written, and the
returned error if any. -/
def writeVectorTileResponse (fmtTime : Int → String) (rs : RequestState)
    (rd : VectorTileResponseData) (writeErr : Option String) :
    RequestState × List (String × String) × Int × Option String :=
  let headers := [("Content-Type", rd.contentType),
                  ("Content-Length", toString rd.data.length)]
  let headers :=
    match rd.lastModified with
    | some lm => headers ++ [("Last-Modified", fmtTime lm)]
    | none => headers
  let rs :=
    match rd.lastModified with
    | some _ =>
      { rs with storageMetadata := { rs.storageMetadata with hasLastModified := true } }
    | none => rs
  let headers :=
    match rd.etag with
    | some e => headers ++ [("ETag", e)]
    | none => headers
  let rs :=
    match rd.etag with
    | some _ => { rs with storageMetadata := { rs.storageMetadata with hasEtag := true } }
    | none => rs
  let rs := { rs with responseState := .success }
  match writeErr with
  | some e =>
    ({ rs with isResponseWriteError := true }, headers, 200,
     some ("failed to write response body: " ++ e))
  | none => (rs, headers, 200, none)

/-- `CoordParseError.Error` from pkg/handler/parse.go (the Go method
panics when no field is set; that case is unreachable from the parser
and modelled as `""`). -/
def CoordParseError.errText (c : CoordParseError) : String :=
  if c.badZ != "" then "Invalid z: " ++ c.badZ
  else if c.badX != "" then "Invalid x: " ++ c.badX
  else if c.badY != "" then "Invalid y: " ++ c.badY
  else ""

/-- The parse-error dispatch of `MetatileHandler`
(pkg/handler/metatile.go lines 59-93): classifies a `ParseError`,
updates the request state, and — only when a status code was chosen
(`sc > 0`) — terminates the request with that status and body.  A
condition error only records `IsCondError` and lets the pipeline
continue. -/
def handlerParseStage (rs : RequestState) (pe : Option ParseError) :
    RequestState × Option (Int × String) :=
  match pe with
  | none => (rs, none)
  | some pe =>
    match pe.mimeErr with
    | some m =>
      ({ rs with responseState := .notFound }, some (404, "Invalid format: " ++ m))
    | none =>
      match pe.coordErr with
      | some c =>
        ({ rs with responseState := .badRequest }, some (400, c.errText))
      | none =>
        match pe.condErr with
        | some _ => ({ rs with isCondError := true }, none)
        | none => (rs, none)

/-! ### Cache-aware S3 storage adapter (pkg/storage/s3.go, cache-aware
revision)

This revision's `StorageResponse` owns its body bytes and carries a
`FetchCacheHit` flag.  The S3 client, the msgpack codec for
`StorageResponse`, the cache client and the key interpolation are
external collaborators, modelled as oracles in `S3CacheEnv`. -/

namespace CachedStorage

/-- `SuccessfulResponse` of the cache-aware storage revision:
`Body []byte; LastModified *time.Time; ETag *string; Size uint64`. -/
structure SuccessfulResponse where
  body : List Nat := []
  lastModified : Option Int := none
  etag : Option String := none
  size : Nat := 0
deriving DecidableEq, Repr

/-- `StorageResponse` of the cache-aware storage revision. -/
structure StorageResponse where
  notFound : Bool := false
  notModified : Bool := false
  fetchCacheHit : Bool := false
  response : Option SuccessfulResponse := none
deriving DecidableEq, Repr

/-- The observable part of a successful `s3.GetObjectOutput`: the body
stream (`nil`, or a stream whose `ioutil.ReadAll` yields bytes or
fails), `ContentLength`, `LastModified` and `ETag`. -/
structure S3Output where
  body : Option (Except String (List Nat)) := none
  contentLength : Option Int := none
  lastModified : Option Int := none
  etag : Option String := none
deriving DecidableEq, Repr

/-- The outcome of `s.client.GetObject`: an `awserr.Error` with its
code, some other error, or a successful output. -/
inductive S3GetResult where
  | awsErr (code : String)
  | otherErr (e : String)
  | ok (out : S3Output)
deriving DecidableEq, Repr

/-- The external collaborators of the cache-aware `S3Storage`:
configuration (`bucket`, `defaultPrefix`), whether the configured cache
is `cache.NilCache`, the cache round-trips, the msgpack codec for
`StorageResponse`, the S3 client, `crypto/md5` in lowercase-hex form,
and `objectKey` (`interpol.WithMap` of the key pattern). -/
structure S3CacheEnv where
  bucket : String
  defaultPrefix : String
  isNilCache : Bool
  cacheGet : String → Except String (Option (List Nat))
  unmarshalResp : List Nat → Except String StorageResponse
  marshalResp : StorageResponse → Except String (List Nat)
  cacheSet : String → List Nat → Except String Unit
  getObject : String → Condition → S3GetResult
  md5Hex : String → String
  objectKey : TileCoord → String → Except String String

/-- The cache key `fmt.Sprintf("s3://%s/%s", s.bucket, key)`. -/
def cacheKeyOf (bucket key : String) : String :=
  "s3://" ++ bucket ++ "/" ++ key

/-- `respondWithKey` of the cache-aware `S3Storage`: consult the cache;
on a hit, decode and return it with `FetchCacheHit` set; on a miss,
issue the conditional `GetObject`, classify `NoSuchKey`/`NotModified`,
read the body, and — unless the cache is `NilCache` — marshal the result
and populate the cache before returning it.  Every cache failure is
returned as an error. -/
def respondWithKey (env : S3CacheEnv) (key : String) (c : Condition) :
    Except String StorageResponse :=
  let cacheKey := cacheKeyOf env.bucket key
  match env.cacheGet cacheKey with
  | .error e => .error ("error fetching from cache: " ++ e)
  | .ok (some cached) =>
    match env.unmarshalResp cached with
    | .error e => .error ("couldn't unmarshal cached response: " ++ e)
    | .ok result => .ok { result with fetchCacheHit := true }
  | .ok none =>
    match env.getObject key c with
    | .awsErr code =>
      if code == "NoSuchKey" then .ok { notFound := true, fetchCacheHit := false }
      else if code == "NotModified" then .ok { notModified := true, fetchCacheHit := false }
      else .error code
    | .otherErr e => .error e
    | .ok output =>
      -- `if output.Body == nil { body = make([]byte, 0) } else { body,
      -- err = ioutil.ReadAll(...); ...; if output.ContentLength != nil
      -- { storageSize = uint64(*output.ContentLength) } }`
      let bodyRead : Except String (List Nat × Nat) :=
        match output.body with
        | none => .ok ([], 0)
        | some (.error e) => .error e
        | some (.ok b) =>
          .ok (b, match output.contentLength with
                  | some cl => (cl % ((2 : Int) ^ 64)).toNat
                  | none => 0)
      match bodyRead with
      | .error e => .error e
      | .ok (body, storageSize) =>
        let result : StorageResponse :=
          { fetchCacheHit := false,
            response := some { body := body, lastModified := output.lastModified,
                               etag := output.etag, size := storageSize } }
        if !env.isNilCache then
          match env.marshalResp result with
          | .error e => .error ("couldn't marshal bytes: " ++ e)
          | .ok marshaledBytes =>
            match env.cacheSet cacheKey marshaledBytes with
            | .error e => .error ("couldn't set cache: " ++ e)
            | .ok _ => .ok result
        else .ok result

/-- `Fetch` of the cache-aware `S3Storage`: build the object key, then
`respondWithKey`. -/
def Fetch (env : S3CacheEnv) (t : TileCoord) (c : Condition) (prefixOverride : String) :
    Except String StorageResponse :=
  match env.objectKey t prefixOverride with
  | .error e => .error e
  | .ok key => respondWithKey env key c

/-- The same storage adapter constructed without a cache:
`NewS3Storage` substitutes `cache.NilCache`, whose `Get` always returns
`(nil, nil)`, and the populate step is skipped by the
`s.tileCache != cache.NilCache` guard. -/
def nilCacheEnv (env : S3CacheEnv) : S3CacheEnv :=
  { env with isNilCache := true, cacheGet := fun _ => .ok none }

/-- `Fetch` of the uncached adapter. -/
def FetchUncached (env : S3CacheEnv) (t : TileCoord) (c : Condition) (prefixOverride : String) :
    Except String StorageResponse :=
  Fetch (nilCacheEnv env) t c prefixOverride

/-- `TileJsonFormat` from pkg/storage (the three named constants
`TileJsonFormat_Mvt`, `TileJsonFormat_Json`, `TileJsonFormat_Topojson`). -/
inductive TileJsonFormat where
  | mvt
  | json
  | topojson
deriving DecidableEq, Repr

/-- `TileJsonFormat.Name`. -/
def TileJsonFormat.Name : TileJsonFormat → String
  | .mvt => "mapbox"
  | .json => "geojson"
  | .topojson => "topojson"

/-- The key built by `TileJson` of the cache-aware `S3Storage`:
`toHash := fmt.Sprintf("/tilejson/%s.json", filename)`, `hash5` is the
first five lowercase hex characters of its MD5, and the key is
`fmt.Sprintf("%s/%s/%s", actualPrefix, hash5, toHash)`. -/
def tileJsonKey (md5Hex : String → String) (defaultPrefix prefixOverride : String)
    (f : TileJsonFormat) : String :=
  let filename := f.Name
  let toHash := "/tilejson/" ++ filename ++ ".json"
  let hashUrlPathSegment := (md5Hex toHash).take 5
  let actualPrefix := if prefixOverride != "" then prefixOverride else defaultPrefix
  actualPrefix ++ "/" ++ hashUrlPathSegment ++ "/" ++ toHash

/-- `TileJson` of the cache-aware `S3Storage`: build the tilejson key,
then `respondWithKey`. -/
def TileJson (env : S3CacheEnv) (f : TileJsonFormat) (c : Condition)
    (prefixOverride : String) : Except String StorageResponse :=
  respondWithKey env (tileJsonKey env.md5Hex env.defaultPrefix prefixOverride f) c

/-- Concrete environment: the cache misses and every cache operation
succeeds; the remote store answers `NoSuchKey`. -/
def envCacheMiss : S3CacheEnv where
  bucket := "b"
  defaultPrefix := "p"
  isNilCache := false
  cacheGet := fun _ => .ok none
  unmarshalResp := fun _ => .error "u"
  marshalResp := fun _ => .ok []
  cacheSet := fun _ _ => .ok ()
  getObject := fun _ _ => .awsErr "NoSuchKey"
  md5Hex := fun _ => ""
  objectKey := fun _ _ => .ok "k"

/-- Concrete environment: the cache hits with an entry that decodes to
a `NotFound` response. -/
def envCacheHit : S3CacheEnv :=
  { envCacheMiss with
    cacheGet := fun _ => .ok (some [7]),
    unmarshalResp := fun _ => .ok { notFound := true } }

/-- Concrete environment: the cache lookup fails while the remote store
would succeed with an empty body. -/
def envCacheDown : S3CacheEnv :=
  { envCacheMiss with
    cacheGet := fun _ => .error "cache down",
    getObject := fun _ _ => .ok {} }

end CachedStorage

/-! ### Vector-tile cache codec (pkg/cache/cache.go)

`marshallVectorTileData` / `unmarshallVectorTileData` delegate to
`msgpack.Marshal` / `msgpack.Unmarshal`
(github.com/vmihailenco/msgpack/v5), an external dependency.  The codec
is modelled here at the msgpack wire level for the shapes the struct
`VectorTileResponseData` produces: a five-entry map of field-name keys
to values, with strings (`str8`/`str32`), binaries (`bin8`/`bin32`),
`nil`, and fixed-width signed integers (`int32`/`int64`, timestamps as
64-bit Unix nanoseconds) in big-endian byte order; lengths beyond the
32-bit msgpack limits are marshalling errors, as in the library. -/

namespace Codec

/-- `k` bytes of `n`, big-endian (most significant first). -/
def beBytes : Nat → Nat → List Nat
  | 0, _ => []
  | k + 1, n => beBytes k (n / 256) ++ [n % 256]

/-- Recompose a big-endian byte list. -/
def beVal (l : List Nat) : Nat :=
  l.foldl (fun a b => a * 256 + b) 0

/-- Split off the first `k` bytes, failing when fewer are present. -/
def readBytes (k : Nat) (l : List Nat) : Option (List Nat × List Nat) :=
  if k ≤ l.length then some (l.take k, l.drop k) else none

/-- Read a `k`-byte big-endian value. -/
def readBE (k : Nat) (l : List Nat) : Option (Nat × List Nat) :=
  (readBytes k l).map fun p => (beVal p.1, p.2)

/-- The byte sequence of a Go string (one code point per byte slot). -/
def strBytes (s : String) : List Nat :=
  s.data.map Char.toNat

/-- Inverse of `strBytes`. -/
def bytesStr (l : List Nat) : String :=
  String.mk (l.map Char.ofNat)

/-- Encode a string (`str8` below 256 bytes, `str32` below `2^32`,
error beyond the msgpack limit). -/
def encStr (s : String) : Except String (List Nat) :=
  let bs := strBytes s
  if bs.length < 256 then .ok (0xd9 :: (beBytes 1 bs.length ++ bs))
  else if bs.length < 2 ^ 32 then .ok (0xdb :: (beBytes 4 bs.length ++ bs))
  else .error "string exceeds msgpack size limit"

/-- Decode a string. -/
def decStr : List Nat → Option (String × List Nat)
  | 0xd9 :: rest => do
    let (n, r1) ← readBE 1 rest
    let (bs, r2) ← readBytes n r1
    pure (bytesStr bs, r2)
  | 0xdb :: rest => do
    let (n, r1) ← readBE 4 rest
    let (bs, r2) ← readBytes n r1
    pure (bytesStr bs, r2)
  | _ => none

/-- Encode a byte slice (`bin8` / `bin32`). -/
def encBin (b : List Nat) : Except String (List Nat) :=
  if b.length < 256 then .ok (0xc4 :: (beBytes 1 b.length ++ b))
  else if b.length < 2 ^ 32 then .ok (0xc6 :: (beBytes 4 b.length ++ b))
  else .error "binary exceeds msgpack size limit"

/-- Decode a byte slice. -/
def decBin : List Nat → Option (List Nat × List Nat)
  | 0xc4 :: rest => do
    let (n, r1) ← readBE 1 rest
    let (bs, r2) ← readBytes n r1
    pure (bs, r2)
  | 0xc6 :: rest => do
    let (n, r1) ← readBE 4 rest
    let (bs, r2) ← readBytes n r1
    pure (bs, r2)
  | _ => none

/-- Encode an `int64` (marker `0xd3`, eight bytes, two's complement). -/
def encInt64 (t : Int) : Except String (List Nat) :=
  if -(2 ^ 63) ≤ t ∧ t < 2 ^ 63 then
    .ok (0xd3 :: beBytes 8 (t % (2 ^ 64)).toNat)
  else .error "integer out of int64 range"

/-- Decode an `int64`. -/
def decInt64 : List Nat → Option (Int × List Nat)
  | 0xd3 :: rest => do
    let (n, r) ← readBE 8 rest
    pure (if n < 2 ^ 63 then (n : Int) else (n : Int) - 2 ^ 64, r)
  | _ => none

/-- The `int32` code of a `ReqResponseState` (its Go `iota` value). -/
def rsCode : ReqResponseState → Nat
  | .nil => 0
  | .success => 1
  | .notModified => 2
  | .notFound => 3
  | .badRequest => 4
  | .err => 5
  | .count => 6

/-- Partial inverse of `rsCode`. -/
def rsOfCode : Nat → Option ReqResponseState
  | 0 => some .nil
  | 1 => some .success
  | 2 => some .notModified
  | 3 => some .notFound
  | 4 => some .badRequest
  | 5 => some .err
  | 6 => some .count
  | _ => none

/-- Encode a `ReqResponseState` (marker `0xd2`, four bytes). -/
def encRS (rs : ReqResponseState) : List Nat :=
  0xd2 :: beBytes 4 (rsCode rs)

/-- Decode a `ReqResponseState`. -/
def decRS : List Nat → Option (ReqResponseState × List Nat)
  | 0xd2 :: rest => do
    let (n, r) ← readBE 4 rest
    let rs ← rsOfCode n
    pure (rs, r)
  | _ => none

/-- Encode an optional timestamp (`nil` marker `0xc0`, else `int64`). -/
def encOptTime : Option Int → Except String (List Nat)
  | none => .ok [0xc0]
  | some t => encInt64 t

/-- Decode an optional timestamp. -/
def decOptTime : List Nat → Option (Option Int × List Nat)
  | 0xc0 :: rest => some (none, rest)
  | l => (decInt64 l).map fun p => (some p.1, p.2)

/-- Encode an optional string (`nil` marker `0xc0`, else a string). -/
def encOptStr : Option String → Except String (List Nat)
  | none => .ok [0xc0]
  | some s => encStr s

/-- Decode an optional string. -/
def decOptStr : List Nat → Option (Option String × List Nat)
  | 0xc0 :: rest => some (none, rest)
  | l => (decStr l).map fun p => (some p.1, p.2)

/-- Encode a struct-field key (the five keys are all shorter than 256
bytes, so `str8` suffices). -/
def encKey (s : String) : List Nat :=
  0xd9 :: (beBytes 1 (strBytes s).length ++ strBytes s)

/-- `marshallVectorTileData` from pkg/cache/cache.go: msgpack-encode a
`VectorTileResponseData` as a five-entry map in struct-field order. -/
def marshallVectorTileData (v : VectorTileResponseData) : Except String (List Nat) := do
  let ect ← encStr v.contentType
  let elm ← encOptTime v.lastModified
  let etg ← encOptStr v.etag
  let ers := encRS v.responseState
  let edt ← encBin v.data
  pure (0x85 :: (encKey "ContentType" ++ (ect ++ (encKey "LastModified" ++ (elm ++
    (encKey "ETag" ++ (etg ++ (encKey "ResponseState" ++ (ers ++
    (encKey "Data" ++ edt))))))))))

/-- Consume an expected map key. -/
def expectKey (s : String) (l : List Nat) : Option (List Nat) := do
  let (k, r) ← decStr l
  if k = s then pure r else none

/-- Decode a `VectorTileResponseData` from the msgpack map layout. -/
def decodeVectorTile (l : List Nat) : Option VectorTileResponseData := do
  let r0 ← match l with | 0x85 :: r => some r | _ => none
  let r1 ← expectKey "ContentType" r0
  let (ct, r2) ← decStr r1
  let r3 ← expectKey "LastModified" r2
  let (lm, r4) ← decOptTime r3
  let r5 ← expectKey "ETag" r4
  let (tg, r6) ← decOptStr r5
  let r7 ← expectKey "ResponseState" r6
  let (rs, r8) ← decRS r7
  let r9 ← expectKey "Data" r8
  let (dt, r10) ← decBin r9
  if r10 = [] then
    pure { contentType := ct, lastModified := lm, etag := tg,
           responseState := rs, data := dt }
  else none

/-- `unmarshallVectorTileData` from pkg/cache/cache.go: msgpack-decode,
reporting a decode failure as an error. -/
def unmarshallVectorTileData (l : List Nat) : Except String VectorTileResponseData :=
  match decodeVectorTile l with
  | some v => .ok v
  | none => .error "error unmarshalling tile data"

end Codec

/-! ## Theorems

Helper lemmas come first, then one theorem per checked claim (with its
witness or counterexample). -/

namespace Codec

theorem beBytes_length (k n : Nat) : (beBytes k n).length = k := by
  induction k generalizing n with
  | zero => simp [beBytes]
  | succ k ih => simp [beBytes, ih]

theorem beVal_append_one (l : List Nat) (m : Nat) :
    beVal (l ++ [m]) = beVal l * 256 + m := by
  simp [beVal, List.foldl_append]

theorem beVal_beBytes (k n : Nat) (h : n < 256 ^ k) : beVal (beBytes k n) = n := by
  induction k generalizing n with
  | zero =>
    have : n = 0 := by simpa using h
    simp [this, beBytes, beVal]
  | succ k ih =>
    have hdiv : n / 256 < 256 ^ k := by
      have : 256 ^ (k + 1) = 256 ^ k * 256 := by ring
      omega
    rw [beBytes, beVal_append_one, ih (n / 256) hdiv]
    omega

theorem readBytes_append (bs rest : List Nat) :
    readBytes bs.length (bs ++ rest) = some (bs, rest) := by
  simp [readBytes, List.take_left, List.drop_left]

theorem readBE_beBytes (k n : Nat) (rest : List Nat) (h : n < 256 ^ k) :
    readBE k (beBytes k n ++ rest) = some (n, rest) := by
  have hr := readBytes_append (beBytes k n) rest
  rw [beBytes_length] at hr
  rw [readBE, hr]
  simp [beVal_beBytes k n h]

theorem bytesStr_strBytes (s : String) : bytesStr (strBytes s) = s := by
  show String.mk (List.map Char.ofNat (List.map Char.toNat s.data)) = s
  rw [List.map_map]
  have : Char.ofNat ∘ Char.toNat = id := funext Char.ofNat_toNat
  rw [this, List.map_id]

theorem decStr_encStr (s : String) (es rest : List Nat) (h : encStr s = .ok es) :
    decStr (es ++ rest) = some (s, rest) := by
  by_cases h1 : (strBytes s).length < 256
  · have hes : es = 0xd9 :: (beBytes 1 (strBytes s).length ++ strBytes s) := by
      simp [encStr, h1] at h
      exact h.symm
    subst hes
    simp only [List.cons_append, List.append_assoc, decStr]
    rw [readBE_beBytes 1 (strBytes s).length _ (by simpa using h1)]
    simp [readBytes_append, bytesStr_strBytes]
  · by_cases h2 : (strBytes s).length < 4294967296
    · have hes : es = 0xdb :: (beBytes 4 (strBytes s).length ++ strBytes s) := by
        simp [encStr, h1] at h
        rw [if_pos h2] at h
        exact ((Except.ok.injEq _ _).mp h).symm
      subst hes
      simp only [List.cons_append, List.append_assoc, decStr]
      rw [readBE_beBytes 4 (strBytes s).length _ (by omega)]
      simp [readBytes_append, bytesStr_strBytes]
    · simp [encStr, h1] at h
      rw [if_neg h2] at h
      cases h

theorem decBin_encBin (b : List Nat) (eb rest : List Nat) (h : encBin b = .ok eb) :
    decBin (eb ++ rest) = some (b, rest) := by
  by_cases h1 : b.length < 256
  · have hes : eb = 0xc4 :: (beBytes 1 b.length ++ b) := by
      simp [encBin, h1] at h
      exact h.symm
    subst hes
    simp only [List.cons_append, List.append_assoc, decBin]
    rw [readBE_beBytes 1 b.length _ (by simpa using h1)]
    simp [readBytes_append]
  · by_cases h2 : b.length < 4294967296
    · have hes : eb = 0xc6 :: (beBytes 4 b.length ++ b) := by
        simp [encBin, h1] at h
        rw [if_pos h2] at h
        exact ((Except.ok.injEq _ _).mp h).symm
      subst hes
      simp only [List.cons_append, List.append_assoc, decBin]
      rw [readBE_beBytes 4 b.length _ (by omega)]
      simp [readBytes_append]
    · simp [encBin, h1] at h
      rw [if_neg h2] at h
      cases h

theorem decInt64_encInt64 (t : Int) (e rest : List Nat) (h : encInt64 t = .ok e) :
    decInt64 (e ++ rest) = some (t, rest) := by
  by_cases hr : -(2 ^ 63) ≤ t ∧ t < 2 ^ 63
  · simp only [encInt64] at h
    rw [if_pos hr] at h
    have hes : e = 0xd3 :: beBytes 8 (t % (2 ^ 64)).toNat :=
      ((Except.ok.injEq _ _).mp h).symm
    subst hes
    have hmod1 : (0 : Int) ≤ t % (2 ^ 64) := Int.emod_nonneg t (by norm_num)
    have hmod2 : t % (2 ^ 64) < 2 ^ 64 := Int.emod_lt_of_pos t (by norm_num)
    have hlt : (t % (2 ^ 64)).toNat < 256 ^ 8 := by omega
    simp only [List.cons_append, decInt64]
    rw [readBE_beBytes 8 _ _ hlt]
    simp only [Option.bind_eq_bind, Option.some_bind]
    have : (if (t % (2 ^ 64)).toNat < 2 ^ 63 then (((t % (2 ^ 64)).toNat : Nat) : Int)
        else (((t % (2 ^ 64)).toNat : Nat) : Int) - 2 ^ 64) = t := by
      rcases hr with ⟨hlo, hhi⟩
      by_cases hpos : 0 ≤ t
      · rw [if_pos (by omega)]
        omega
      · rw [if_neg (by omega)]
        omega
    rw [this]
    rfl
  · simp only [encInt64] at h
    rw [if_neg hr] at h
    cases h

theorem decRS_encRS (rs : ReqResponseState) (rest : List Nat) :
    decRS (encRS rs ++ rest) = some (rs, rest) := by
  have hlt : rsCode rs < 256 ^ 4 := by cases rs <;> simp [rsCode]
  simp only [encRS, List.cons_append, decRS]
  rw [readBE_beBytes 4 _ _ hlt]
  cases rs <;> simp [rsCode, rsOfCode]

theorem decOptTime_encOptTime (o : Option Int) (e rest : List Nat)
    (h : encOptTime o = .ok e) : decOptTime (e ++ rest) = some (o, rest) := by
  cases o with
  | none =>
    have : e = [0xc0] := by simpa [encOptTime] using h.symm
    subst this
    simp [decOptTime]
  | some t =>
    have hd := decInt64_encInt64 t e rest (by simpa [encOptTime] using h)
    have hne : ∃ tl, e = 0xd3 :: tl := by
      by_cases hr : -(2 ^ 63) ≤ t ∧ t < 2 ^ 63
      · refine ⟨beBytes 8 (t % (2 ^ 64)).toNat, ?_⟩
        have h' : encInt64 t = .ok e := by simpa [encOptTime] using h
        simp only [encInt64] at h'
        rw [if_pos hr] at h'
        exact ((Except.ok.injEq _ _).mp h').symm
      · have h' : encInt64 t = .ok e := by simpa [encOptTime] using h
        simp only [encInt64] at h'
        rw [if_neg hr] at h'
        cases h'
    obtain ⟨tl, rfl⟩ := hne
    simp only [List.cons_append] at hd ⊢
    simp only [decOptTime]
    rw [hd]
    rfl

theorem decOptStr_encOptStr (o : Option String) (e rest : List Nat)
    (h : encOptStr o = .ok e) : decOptStr (e ++ rest) = some (o, rest) := by
  cases o with
  | none =>
    have : e = [0xc0] := by simpa [encOptStr] using h.symm
    subst this
    simp [decOptStr]
  | some s =>
    have hd := decStr_encStr s e rest (by simpa [encOptStr] using h)
    have hne : e = 0xd9 :: e.tail ∨ e = 0xdb :: e.tail := by
      by_cases h1 : (strBytes s).length < 256
      · left
        have h' : e = 0xd9 :: (beBytes 1 (strBytes s).length ++ strBytes s) := by
          simp [encOptStr, encStr, h1] at h
          exact h.symm
        rw [h']
        rfl
      · by_cases h2 : (strBytes s).length < 4294967296
        · right
          have h' : e = 0xdb :: (beBytes 4 (strBytes s).length ++ strBytes s) := by
            simp [encOptStr, encStr, h1] at h
            rw [if_pos h2] at h
            exact ((Except.ok.injEq _ _).mp h).symm
          rw [h']
          rfl
        · simp [encOptStr, encStr, h1] at h
          rw [if_neg h2] at h
          cases h
    rcases hne with he | he
    · rw [he] at hd ⊢
      simp only [List.cons_append] at hd ⊢
      simp only [decOptStr]
      rw [hd]
      rfl
    · rw [he] at hd ⊢
      simp only [List.cons_append] at hd ⊢
      simp only [decOptStr]
      rw [hd]
      rfl

theorem expectKey_encKey (s : String) (rest : List Nat)
    (hlen : (strBytes s).length < 256) :
    expectKey s (encKey s ++ rest) = some rest := by
  have henc : encStr s = .ok (encKey s) := by
    simp [encStr, encKey, hlen]
  have hd := decStr_encStr s (encKey s) rest henc
  simp [expectKey, hd]

/-- C5: for every `VectorTileResponseData` v, decoding the encoding of v
through the cache codec yields v back; in particular `ContentType`,
`Data`, `LastModified`, `ETag` and `ResponseState` are preserved
(round-trip of `marshallVectorTileData` followed by
`unmarshallVectorTileData`). -/
theorem C5_cache_codec_round_trip (v : VectorTileResponseData) (b : List Nat)
    (h : marshallVectorTileData v = .ok b) :
    unmarshallVectorTileData b = .ok v := by
  cases hct : encStr v.contentType with
  | error e => simp [marshallVectorTileData, hct, Except.bind, Except.map, bind, Bind.bind] at h
  | ok ect =>
  cases hlm : encOptTime v.lastModified with
  | error e => simp [marshallVectorTileData, hct, hlm, Except.bind, Except.map, bind, Bind.bind] at h
  | ok elm =>
  cases htg : encOptStr v.etag with
  | error e => simp [marshallVectorTileData, hct, hlm, htg, Except.bind, Except.map, bind, Bind.bind] at h
  | ok etg =>
  cases hdt : encBin v.data with
  | error e => simp [marshallVectorTileData, hct, hlm, htg, hdt, Except.bind, Except.map, bind, Bind.bind] at h
  | ok edt =>
  have hb : b = 0x85 :: (encKey "ContentType" ++ (ect ++ (encKey "LastModified" ++ (elm ++
      (encKey "ETag" ++ (etg ++ (encKey "ResponseState" ++ (encRS v.responseState ++
      (encKey "Data" ++ edt))))))))) := by
    simp [marshallVectorTileData, hct, hlm, htg, hdt, Except.bind, Except.map, bind,
      Bind.bind, pure, Except.pure] at h
    exact h.symm
  subst hb
  have hedt : decBin (edt ++ []) = some (v.data, []) := decBin_encBin v.data edt [] hdt
  rw [List.append_nil] at hedt
  simp only [unmarshallVectorTileData, decodeVectorTile, Option.bind_eq_bind,
    Option.some_bind,
    expectKey_encKey "ContentType" _ (by decide),
    expectKey_encKey "LastModified" _ (by decide),
    expectKey_encKey "ETag" _ (by decide),
    expectKey_encKey "ResponseState" _ (by decide),
    expectKey_encKey "Data" _ (by decide),
    decStr_encStr v.contentType ect _ hct,
    decOptTime_encOptTime v.lastModified elm _ hlm,
    decOptStr_encOptStr v.etag etg _ htg,
    decRS_encRS v.responseState,
    hedt]
  simp

/-- Witness for C5 at a concrete value. -/
theorem C5_cache_codec_round_trip_witness :
    unmarshallVectorTileData
      ((marshallVectorTileData
        { contentType := "application/json", lastModified := some 123,
          etag := some "1234", responseState := .success, data := [123, 125] }).toOption.getD [])
      = .ok { contentType := "application/json", lastModified := some 123,
              etag := some "1234", responseState := .success, data := [123, 125] } :=
  C5_cache_codec_round_trip _ _ (by rfl)

end Codec

theorem findInZip_found (target : String) (entries : List ZipEntry) (e : ZipEntry)
    (hf : entries.find? (fun f => f.name == target) = some e) (ho : e.openErr = none) :
    findInZip target entries = .ok ({ read := e.read, closeErr := e.closeErr }, e.uncompressedSize) := by
  induction entries with
  | nil => simp at hf
  | cons f fs ih =>
    by_cases hn : f.name == target
    · have hf' : some f = some e := by simpa [List.find?_cons, hn] using hf
      cases hf'
      simp [findInZip, hn, ho]
    · have hf' : fs.find? (fun f => f.name == target) = some e := by
        simpa [List.find?_cons, hn] using hf
      simp only [findInZip, hn]
      simp only [Bool.false_eq_true, if_false]
      exact ih hf'

theorem findInZip_missing (target : String) (entries : List ZipEntry)
    (hf : entries.find? (fun f => f.name == target) = none) :
    findInZip target entries =
      .error ("Unable to find relative tile offset \"" ++ target ++ "\" in metatile.") := by
  induction entries with
  | nil => rfl
  | cons f fs ih =>
    by_cases hn : f.name == target
    · simp [List.find?_cons, hn] at hf
    · simp only [findInZip, hn]
      simp only [Bool.false_eq_true, if_false]
      exact ih (by simpa [List.find?_cons, hn] using hf)

/-- C6: `NewMetatileReader` over a well-formed ZIP archive looks the
member up by exact, case-sensitive equality with `offset.FileName()`;
on a hit it returns the member's stream and declared uncompressed size,
on a miss an error whose message names the target filename; and
`FileName` is the `"{Z}/{X}/{Y}.{fmt}"` template. -/
theorem C6_metatile_reader_lookup (t : TileCoord) (entries : List ZipEntry) :
    (∀ e : ZipEntry, entries.find? (fun f => f.name == t.FileName) = some e →
      e.openErr = none →
      NewMetatileReader t (.ok entries) =
        .ok ({ read := e.read, closeErr := e.closeErr }, e.uncompressedSize)) ∧
    (entries.find? (fun f => f.name == t.FileName) = none →
      NewMetatileReader t (.ok entries) =
        .error ("Unable to find relative tile offset \"" ++ t.FileName ++ "\" in metatile.")) ∧
    t.FileName = toString t.z ++ "/" ++ toString t.x ++ "/" ++ toString t.y ++ "." ++ t.format := by
  refine ⟨?_, ?_, rfl⟩
  · intro e hf ho
    exact findInZip_found t.FileName entries e hf ho
  · intro hf
    exact findInZip_missing t.FileName entries hf

/-- Witness for C6: a one-member archive holding `0/0/0.json`. -/
theorem C6_metatile_reader_lookup_witness :
    NewMetatileReader ⟨0, 0, 0, "json"⟩
        (.ok [{ name := "0/0/0.json", uncompressedSize := 2,
                openErr := none, read := .ok [123, 125], closeErr := none }]) =
      .ok ({ read := .ok [123, 125], closeErr := none }, 2) :=
  (C6_metatile_reader_lookup ⟨0, 0, 0, "json"⟩
      [{ name := "0/0/0.json", uncompressedSize := 2,
         openErr := none, read := .ok [123, 125], closeErr := none }]).1
    { name := "0/0/0.json", uncompressedSize := 2,
      openErr := none, read := .ok [123, 125], closeErr := none }
    (by decide) rfl

/-- C1: the specification's meta/offset law fails on the code.  At
`metaSize = 16 = 2^4`, `tileSize = 1 = 2^0`, the law's `ΔZ` is
`log2(16) − log2(1) = 4`, so for `z = 4, x = 0, y = 0` it prescribes
`meta = (0,0,0,"zip")` and `offset = (4,0,0,fmt)`; but `sizeToZoom 16`
evaluates to `3` (its shift table `{1,2,3,4,16}` mis-transcribes the
cited integer-log2 bithack's `{1,2,4,8,16}`), so `MetaAndOffset`
returns `meta = (1,0,0,"zip")`, `offset = (3,0,0,fmt)`. -/
theorem C1_meta_offset_law_code_eval :
    TileCoord.MetaAndOffset ⟨4, 0, 0, "json"⟩ 16 1 =
      .ok ({ z := 1, x := 0, y := 0, format := "zip" },
           { z := 3, x := 0, y := 0, format := "json" }) ∧
    sizeToZoom 16 = 3 ∧ (16 : Int) = 2 ^ 4 ∧ (1 : Int) = 2 ^ 0 ∧
    TileCoord.MetaAndOffset ⟨4, 0, 0, "json"⟩ 16 1 ≠
      .ok ({ z := 0, x := 0, y := 0, format := "zip" },
           { z := 4, x := 0, y := 0, format := "json" }) := by
  refine ⟨by decide, by decide, by decide, by decide, by decide⟩

/-- C7: the specification's clamping law fails on the code.  At
`metaSize = 16 = 2^4`, `tileSize = 1 = 2^0`, the law's `ΔZ` is `4`, so
`z = 3 < ΔZ` should clamp to `meta = (0,0,0,"zip")`,
`offset = (0,0,0,fmt)`; but the code's `deltaZ` is `sizeToZoom 16 = 3`,
`z = 3` is not below it, and the offset comes out as `(3,0,0,fmt)`. -/
theorem C7_clamping_law_code_eval :
    TileCoord.MetaAndOffset ⟨3, 0, 0, "json"⟩ 16 1 =
      .ok ({ z := 0, x := 0, y := 0, format := "zip" },
           { z := 3, x := 0, y := 0, format := "json" }) ∧
    (16 : Int) = 2 ^ 4 ∧ (1 : Int) = 2 ^ 0 ∧ ((3 : Int) < 4) ∧
    TileCoord.MetaAndOffset ⟨3, 0, 0, "json"⟩ 16 1 ≠
      .ok ({ z := 0, x := 0, y := 0, format := "zip" },
           { z := 0, x := 0, y := 0, format := "json" }) := by
  refine ⟨by decide, by decide, by decide, by decide, by decide⟩

theorem tryLayouts_eq_findSome (tp : TimeParser) (date : String) (ls : List String) :
    tryLayouts tp date ls = ls.findSome? (fun l => (tp l date).toOption) := by
  induction ls with
  | nil => rfl
  | cons l ls ih =>
    cases h : tp l date <;> simp [tryLayouts, List.findSome?_cons, h, Except.toOption, ih]

/-- C8: `parseHTTPDates` tries, in order, the HTTP standard format,
RFC1123, RFC1123Z, RFC822, RFC822Z, RFC850 and ANSI C; the first layout
that parses wins, and when all fail the function returns no timestamp
together with the error produced by parsing with the HTTP standard
format. -/
theorem C8_parse_http_dates_order (tp : TimeParser) (date : String) :
    (∀ ts : Int, timeLayouts.findSome? (fun l => (tp l date).toOption) = some ts →
      parseHTTPDates tp date = (some ts, none)) ∧
    (timeLayouts.findSome? (fun l => (tp l date).toOption) = none →
      ∃ e, tp httpTimeFormat date = .error e ∧ parseHTTPDates tp date = (none, some e)) := by
  constructor
  · intro ts hts
    rw [parseHTTPDates, tryLayouts_eq_findSome, hts]
  · intro hnone
    have hall := List.findSome?_eq_none_iff.mp hnone
    have hhttp : (tp httpTimeFormat date).toOption = none := by
      have : httpTimeFormat ∈ timeLayouts := by simp [timeLayouts]
      exact hall _ this
    obtain ⟨e, he⟩ : ∃ e, tp httpTimeFormat date = .error e := by
      cases h : tp httpTimeFormat date with
      | ok v => rw [h] at hhttp; cases hhttp
      | error e => exact ⟨e, rfl⟩
    refine ⟨e, he, ?_⟩
    rw [parseHTTPDates, tryLayouts_eq_findSome, hnone, he]

/-- Witness for C8: a parser succeeding only at RFC1123 and one failing
everywhere. -/
theorem C8_parse_http_dates_order_witness :
    parseHTTPDates (fun l _ => if l = rfc1123 then .ok 42 else .error "nope") "d"
        = (some 42, none) ∧
    parseHTTPDates (fun _ _ => .error "bad") "d" = (none, some "bad") :=
  ⟨(C8_parse_http_dates_order (fun l _ => if l = rfc1123 then .ok 42 else .error "nope") "d").1
      42 (by decide),
   ((C8_parse_http_dates_order (fun _ _ => .error "bad") "d").2 (by decide)).elim
      (fun e h => by rw [h.2]; cases h.1; rfl)⟩

theorem C9_etag_sets_last_modified_flag (env : HandlerEnv) (rs : RequestState)
    (pr : ParseResult) (ms ts md : Int) (meta offset : TileCoord)
    (sr : StorageResponse) (succ : SuccessfulResponse)
    (hmo : pr.coord.MetaAndOffset ms ts = .ok (meta, offset))
    (hf : env.fetch meta pr.cond pr.buildID = .ok sr)
    (hnf : sr.notFound = false) (hnm : sr.notModified = false)
    (hresp : sr.response = some succ) (hetag : succ.etag.isSome = true) :
    ((extractVectorTileFromMetatile env rs pr ms ts md).1.storageMetadata.hasLastModified = true ∧
     (extractVectorTileFromMetatile env rs pr ms ts md).1.storageMetadata.hasEtag =
       rs.storageMetadata.hasEtag) ∧
    (∀ (fmtTime : Int → String) (rs2 : RequestState) (rd : VectorTileResponseData)
        (we : Option String), rd.etag.isSome = true →
      (writeVectorTileResponse fmtTime rs2 rd we).1.storageMetadata.hasEtag = true) := by
  constructor
  · obtain ⟨ev, hev⟩ := Option.isSome_iff_exists.mp hetag
    simp only [extractVectorTileFromMetatile, hmo, hf]
    simp only [extractFetchStage, hnf, hnm, hresp, hev]
    simp only [Bool.false_eq_true, if_false]
    constructor
    · repeat' split
      all_goals rfl
    · repeat' split
      all_goals rfl
  · intro fmtTime rs2 rd we hrd
    obtain ⟨ev, hev⟩ := Option.isSome_iff_exists.mp hrd
    cases hlm : rd.lastModified <;>
      cases we <;>
        simp [writeVectorTileResponse, hlm, hev]

/-- Witness for C9: a fetch result carrying an ETag but no
Last-Modified still flips `hasLastModified` (and not `hasEtag`), while
writing a response with an ETag flips `hasEtag`. -/
theorem C9_etag_sets_last_modified_flag_witness :
    (extractVectorTileFromMetatile
        ⟨fun _ _ _ => .ok { response := some { body := .ok [], etag := some "1234" } },
         fun _ => .error "no zip"⟩
        {} { coord := ⟨0, 0, 0, "json"⟩ } 1 1 0).1.storageMetadata.hasLastModified = true ∧
    (writeVectorTileResponse (fun _ => "t") {} { etag := some "1234" }
        none).1.storageMetadata.hasEtag = true :=
  ⟨(C9_etag_sets_last_modified_flag
      ⟨fun _ _ _ => .ok { response := some { body := .ok [], etag := some "1234" } },
       fun _ => .error "no zip"⟩
      {} { coord := ⟨0, 0, 0, "json"⟩ } 1 1 0 ⟨0, 0, 0, "zip"⟩ ⟨0, 0, 0, "json"⟩
      { response := some { body := .ok [], etag := some "1234" } }
      { body := .ok [], etag := some "1234" }
      rfl rfl rfl rfl rfl rfl).1.1,
   (C9_etag_sets_last_modified_flag
      ⟨fun _ _ _ => .ok { response := some { body := .ok [], etag := some "1234" } },
       fun _ => .error "no zip"⟩
      {} { coord := ⟨0, 0, 0, "json"⟩ } 1 1 0 ⟨0, 0, 0, "zip"⟩ ⟨0, 0, 0, "json"⟩
      { response := some { body := .ok [], etag := some "1234" } }
      { body := .ok [], etag := some "1234" }
      rfl rfl rfl rfl rfl rfl).2 (fun _ => "t") {} { etag := some "1234" } none rfl⟩

theorem fdiv_neg_of_neg (x : Int) (n : Nat) (hx : x < 0) : Int.fdiv x (2 ^ n) < 0 := by
  rw [Int.fdiv_eq_ediv _ (by positivity)]
  exact Int.ediv_neg' hx (by positivity)

theorem MetaAndOffset_caseA (mz tz : Int) (t : TileCoord)
    (hm : IsPowerOfTwo mz = true) (ht : IsPowerOfTwo tz = true)
    (hzoom : sizeToZoom tz.toNat ≤ sizeToZoom mz.toNat)
    (hz : ((sizeToZoom mz.toNat - sizeToZoom tz.toNat : Nat) : Int) ≤ t.z) :
    t.MetaAndOffset mz tz =
      .ok ({ z := t.z - ((sizeToZoom mz.toNat - sizeToZoom tz.toNat : Nat) : Int)
             x := Int.fdiv t.x (2 ^ (sizeToZoom mz.toNat - sizeToZoom tz.toNat))
             y := Int.fdiv t.y (2 ^ (sizeToZoom mz.toNat - sizeToZoom tz.toNat))
             format := "zip" },
           { z := t.z - (t.z - ((sizeToZoom mz.toNat - sizeToZoom tz.toNat : Nat) : Int))
             x := t.x - Int.fdiv t.x (2 ^ (sizeToZoom mz.toNat - sizeToZoom tz.toNat)) *
               2 ^ (sizeToZoom mz.toNat - sizeToZoom tz.toNat)
             y := t.y - Int.fdiv t.y (2 ^ (sizeToZoom mz.toNat - sizeToZoom tz.toNat)) *
               2 ^ (sizeToZoom mz.toNat - sizeToZoom tz.toNat)
             format := t.format }) := by
  rw [TileCoord.MetaAndOffset]
  simp only [hm, ht, Bool.not_true, Bool.false_eq_true, if_false]
  rw [if_neg (Nat.not_lt.mpr hzoom), if_neg (Int.not_lt.mpr hz)]

/-- C10: the pipeline never rejects out-of-grid coordinates.  (1) The
parser accepts any strings that `strconv.Atoi` parses — arbitrary signed
integers, with no grid or range check — and passes them through
unchanged.  (2) For every coordinate with `z` at or above the computed
zoom delta, `MetaAndOffset` succeeds and computes `meta.X`/`meta.Y` by
arithmetic (sign-preserving) right shift, so negative inputs yield
negative metatile coordinates.  (3) The extraction stage hands exactly
that metatile coordinate to the storage fetch. -/
theorem C10_out_of_grid_accepted :
    (∀ (atoi : String → Except String Int) (tp : TimeParser)
        (mimeMap : String → Option String) (req : RequestModel) (ct : String)
        (zi xi yi : Int),
      mimeMap req.varFmt = some ct →
      atoi req.varZ = .ok zi → atoi req.varX = .ok xi → atoi req.varY = .ok yi →
      (ParseCondition tp req.ifNoneMatchHeader req.ifModifiedSinceHeader).2 = none →
      (MetatileMuxParse atoi tp mimeMap req).2 = none ∧
      (MetatileMuxParse atoi tp mimeMap req).1.coord = ⟨zi, xi, yi, req.varFmt⟩) ∧
    (∀ (mz tz : Int) (t : TileCoord),
      IsPowerOfTwo mz = true → IsPowerOfTwo tz = true →
      sizeToZoom tz.toNat ≤ sizeToZoom mz.toNat →
      ((sizeToZoom mz.toNat - sizeToZoom tz.toNat : Nat) : Int) ≤ t.z →
      ∃ meta offset : TileCoord,
        t.MetaAndOffset mz tz = .ok (meta, offset) ∧
        meta.x = Int.fdiv t.x (2 ^ (sizeToZoom mz.toNat - sizeToZoom tz.toNat)) ∧
        meta.y = Int.fdiv t.y (2 ^ (sizeToZoom mz.toNat - sizeToZoom tz.toNat)) ∧
        (t.x < 0 → meta.x < 0) ∧ (t.y < 0 → meta.y < 0)) ∧
    (∀ (env : HandlerEnv) (rs : RequestState) (pr : ParseResult) (ms ts md : Int)
        (meta offset : TileCoord),
      pr.coord.MetaAndOffset ms ts = .ok (meta, offset) →
      extractVectorTileFromMetatile env rs pr ms ts md =
        extractFetchStage env rs { contentType := pr.contentType } offset
          (env.fetch meta pr.cond pr.buildID)) := by
  refine ⟨?_, ?_, ?_⟩
  · intro atoi tp mimeMap req ct zi xi yi hmime hz hx hy hcond
    constructor <;>
      simp [MetatileMuxParse, hmime, hz, hx, hy, CoordParseError.IsError, hcond]
  · intro mz tz t hm ht hzoom hz
    refine ⟨_, _, MetaAndOffset_caseA mz tz t hm ht hzoom hz, rfl, rfl, ?_, ?_⟩
    · exact fun hx => fdiv_neg_of_neg t.x _ hx
    · exact fun hy => fdiv_neg_of_neg t.y _ hy
  · intro env rs pr ms ts md meta offset hmo
    simp only [extractVectorTileFromMetatile, hmo]

/-- Witness for C10 at concrete inputs, including a negative
coordinate. -/
theorem C10_out_of_grid_accepted_witness :
    ((MetatileMuxParse (fun _ => .ok (-5)) (fun _ _ => .error "e") (fun _ => some "ct")
        { varZ := "-5", varX := "-5", varY := "-5", varFmt := "json" }).2 = none ∧
      (MetatileMuxParse (fun _ => .ok (-5)) (fun _ _ => .error "e") (fun _ => some "ct")
        { varZ := "-5", varX := "-5", varY := "-5", varFmt := "json" }).1.coord =
        ⟨-5, -5, -5, "json"⟩) ∧
    (∃ meta offset : TileCoord,
      TileCoord.MetaAndOffset ⟨12, -5, -7, "json"⟩ 8 1 = .ok (meta, offset) ∧
      meta.x = Int.fdiv (-5) (2 ^ (sizeToZoom (8 : Int).toNat - sizeToZoom (1 : Int).toNat)) ∧
      meta.y = Int.fdiv (-7) (2 ^ (sizeToZoom (8 : Int).toNat - sizeToZoom (1 : Int).toNat)) ∧
      ((-5 : Int) < 0 → meta.x < 0) ∧ ((-7 : Int) < 0 → meta.y < 0)) :=
  ⟨C10_out_of_grid_accepted.1 (fun _ => .ok (-5)) (fun _ _ => .error "e") (fun _ => some "ct")
      { varZ := "-5", varX := "-5", varY := "-5", varFmt := "json" } "ct" (-5) (-5) (-5)
      rfl rfl rfl rfl rfl,
   C10_out_of_grid_accepted.2.1 8 1 ⟨12, -5, -7, "json"⟩ (by decide) (by decide)
      (by decide) (by decide)⟩

/-- C3 (amended): when the If-Modified-Since header fails to parse, the
parser reports only a condition error, the handler records the flag and
continues without writing a status; the condition it continues with has
no IfModifiedSince timestamp — but an If-None-Match header parsed before
the failure is retained. -/
theorem C3_cond_error_continues (atoi : String → Except String Int) (tp : TimeParser)
    (mimeMap : String → Option String) (req : RequestModel) (ct : String)
    (zi xi yi : Int)
    (hmime : mimeMap req.varFmt = some ct)
    (hz : atoi req.varZ = .ok zi) (hx : atoi req.varX = .ok xi)
    (hy : atoi req.varY = .ok yi)
    (hims : req.ifModifiedSinceHeader ≠ "")
    (hfail : ∀ layout, (tp layout req.ifModifiedSinceHeader).toOption = none) :
    (∃ e, (MetatileMuxParse atoi tp mimeMap req).2 =
      some { mimeErr := none, coordErr := none, condErr := some e }) ∧
    (MetatileMuxParse atoi tp mimeMap req).1.cond.ifModifiedSince = none ∧
    (MetatileMuxParse atoi tp mimeMap req).1.cond.ifNoneMatch =
      (if req.ifNoneMatchHeader != "" then some req.ifNoneMatchHeader else none) ∧
    (∀ rs : RequestState, handlerParseStage rs (MetatileMuxParse atoi tp mimeMap req).2 =
      ({ rs with isCondError := true }, none)) := by
  have htry : tryLayouts tp req.ifModifiedSinceHeader timeLayouts = none := by
    rw [tryLayouts_eq_findSome]
    exact List.findSome?_eq_none_iff.mpr (fun l _ => hfail l)
  obtain ⟨e, he⟩ : ∃ e, tp httpTimeFormat req.ifModifiedSinceHeader = .error e := by
    cases h : tp httpTimeFormat req.ifModifiedSinceHeader with
    | ok v =>
      have := hfail httpTimeFormat
      rw [h] at this
      cases this
    | error e => exact ⟨e, rfl⟩
  have hpd : parseHTTPDates tp req.ifModifiedSinceHeader = (none, some e) := by
    rw [parseHTTPDates, htry, he]
  have hpc : ParseCondition tp req.ifNoneMatchHeader req.ifModifiedSinceHeader =
      ({ ifModifiedSince := none,
         ifNoneMatch := if req.ifNoneMatchHeader != "" then some req.ifNoneMatchHeader
                        else none }, some e) := by
    simp only [ParseCondition, hpd]
    rw [if_pos (by simpa using hims)]
    split <;> rfl
  have hP : (MetatileMuxParse atoi tp mimeMap req).2 =
        some { mimeErr := none, coordErr := none, condErr := some e } ∧
      (MetatileMuxParse atoi tp mimeMap req).1.cond =
        { ifModifiedSince := none,
          ifNoneMatch := if req.ifNoneMatchHeader != "" then some req.ifNoneMatchHeader
                         else none } := by
    constructor <;>
      simp [MetatileMuxParse, hmime, hz, hx, hy, CoordParseError.IsError, hpc]
  refine ⟨⟨e, hP.1⟩, ?_, ?_, ?_⟩
  · rw [hP.2]
  · rw [hP.2]
  · intro rs
    rw [hP.1]
    rfl

/-- Counterexample for C3 as stated: with the If-None-Match header set
to `"tag123"` and a malformed If-Modified-Since, the handler continues —
but the condition passed onward retains the entity tag, and a storage
fetch that inspects it observes `IfNoneMatch = "tag123"` (the extraction
stage reports the sentinel fetch error), refuting "neither an
IfModifiedSince timestamp nor an IfNoneMatch entity tag is passed to the
storage fetch". -/
theorem C3_cond_error_counterexample :
    ((MetatileMuxParse (fun _ => .ok 1) (fun _ _ => .error "bad date")
        (fun _ => some "application/json")
        { varZ := "1", varX := "1", varY := "1", varFmt := "json",
          ifNoneMatchHeader := "tag123", ifModifiedSinceHeader := "garbage" }).1.cond =
      { ifModifiedSince := none, ifNoneMatch := some "tag123" }) ∧
    (handlerParseStage {}
        (MetatileMuxParse (fun _ => .ok 1) (fun _ _ => .error "bad date")
          (fun _ => some "application/json")
          { varZ := "1", varX := "1", varY := "1", varFmt := "json",
            ifNoneMatchHeader := "tag123", ifModifiedSinceHeader := "garbage" }).2 =
      ({ isCondError := true }, none)) ∧
    ((extractVectorTileFromMetatile
        ⟨fun _ c _ => if c.ifNoneMatch = some "tag123" then .error "sentinel"
                      else .ok { notFound := true },
         fun _ => .error "z"⟩
        {}
        (MetatileMuxParse (fun _ => .ok 1) (fun _ _ => .error "bad date")
          (fun _ => some "application/json")
          { varZ := "1", varX := "1", varY := "1", varFmt := "json",
            ifNoneMatchHeader := "tag123", ifModifiedSinceHeader := "garbage" }).1
        1 1 0).2.2 = some "metatile storage fetch failure: sentinel") := by
  refine ⟨by decide, by decide, by decide⟩

/-- Witness for C3 (amended) at a concrete request. -/
theorem C3_cond_error_continues_witness :
    (∃ e, (MetatileMuxParse (fun _ => .ok 1) (fun _ _ => .error "bad date")
        (fun _ => some "application/json")
        { varZ := "1", varX := "1", varY := "1", varFmt := "json",
          ifNoneMatchHeader := "tag123", ifModifiedSinceHeader := "garbage" }).2 =
      some { mimeErr := none, coordErr := none, condErr := some e }) ∧
    (MetatileMuxParse (fun _ => .ok 1) (fun _ _ => .error "bad date")
        (fun _ => some "application/json")
        { varZ := "1", varX := "1", varY := "1", varFmt := "json",
          ifNoneMatchHeader := "tag123", ifModifiedSinceHeader := "garbage" }).1.cond.ifModifiedSince = none ∧
    (MetatileMuxParse (fun _ => .ok 1) (fun _ _ => .error "bad date")
        (fun _ => some "application/json")
        { varZ := "1", varX := "1", varY := "1", varFmt := "json",
          ifNoneMatchHeader := "tag123", ifModifiedSinceHeader := "garbage" }).1.cond.ifNoneMatch =
      (if ("tag123" : String) != "" then some "tag123" else none) ∧
    (∀ rs : RequestState, handlerParseStage rs
        (MetatileMuxParse (fun _ => .ok 1) (fun _ _ => .error "bad date")
          (fun _ => some "application/json")
          { varZ := "1", varX := "1", varY := "1", varFmt := "json",
            ifNoneMatchHeader := "tag123", ifModifiedSinceHeader := "garbage" }).2 =
      ({ rs with isCondError := true }, none)) :=
  C3_cond_error_continues (fun _ => .ok 1) (fun _ _ => .error "bad date")
    (fun _ => some "application/json")
    { varZ := "1", varX := "1", varY := "1", varFmt := "json",
      ifNoneMatchHeader := "tag123", ifModifiedSinceHeader := "garbage" }
    "application/json" 1 1 1 rfl rfl rfl rfl (by decide) (fun _ => rfl)

namespace CachedStorage

theorem respondWithKey_nil_miss (env : S3CacheEnv) (key : String) (c : Condition)
    (hg : env.cacheGet (cacheKeyOf env.bucket key) = .ok none)
    (hm : ∀ r, ∃ b, env.marshalResp r = .ok b)
    (hs : ∀ k b, env.cacheSet k b = .ok ()) :
    respondWithKey env key c = respondWithKey (nilCacheEnv env) key c := by
  simp only [respondWithKey, nilCacheEnv, hg]
  cases hgo : env.getObject key c with
  | awsErr code => rfl
  | otherErr e => rfl
  | ok output =>
    cases hb : output.body with
    | none =>
      obtain ⟨mb, hmb⟩ :=
        hm { fetchCacheHit := false,
             response := some { body := [], lastModified := output.lastModified,
                                etag := output.etag, size := 0 } }
      cases hnc : env.isNilCache <;> simp [hb, hmb, hs, hnc]
    | some rd =>
      cases rd with
      | error e => simp [hb]
      | ok bs =>
        obtain ⟨mb, hmb⟩ :=
          hm { fetchCacheHit := false,
               response := some { body := bs, lastModified := output.lastModified,
                                  etag := output.etag,
                                  size := match output.contentLength with
                                          | some cl => (cl % (18446744073709551616 : Int)).toNat
                                          | none => 0 } }
        cases hnc : env.isNilCache <;> simp [hb, hmb, hs, hnc]

/-- C2 (amended): the cache-aware `Fetch` agrees with the uncached
`Fetch` whenever every cache operation succeeds and the lookup misses;
and a cache hit that decodes is served as stored (with `FetchCacheHit`
set), without consulting the remote store or the request condition.
Cache lookup, decode, encode and populate failures, by contrast, are
returned as errors from `Fetch` (see the counterexample). -/
theorem C2_cache_wrapper_equivalence (env : S3CacheEnv)
    (hg : ∀ k, env.cacheGet k = .ok none)
    (hm : ∀ r, ∃ b, env.marshalResp r = .ok b)
    (hs : ∀ k b, env.cacheSet k b = .ok ()) :
    (∀ (t : TileCoord) (c : Condition) (po : String),
      Fetch env t c po = FetchUncached env t c po) ∧
    (∀ (env2 : S3CacheEnv) (key : String) (c : Condition) (cached : List Nat)
        (r : StorageResponse),
      env2.cacheGet (cacheKeyOf env2.bucket key) = .ok (some cached) →
      env2.unmarshalResp cached = .ok r →
      respondWithKey env2 key c = .ok { r with fetchCacheHit := true }) := by
  constructor
  · intro t c po
    simp only [Fetch, FetchUncached]
    have hok : (nilCacheEnv env).objectKey = env.objectKey := rfl
    rw [hok]
    cases hkey : env.objectKey t po with
    | error e => rfl
    | ok key => exact respondWithKey_nil_miss env key c (hg _) hm hs
  · intro env2 key c cached r hget hdec
    simp only [respondWithKey, hget, hdec]

end CachedStorage

namespace CachedStorage

/-- Witness for C2 (amended): in `envCacheMiss` the cache-aware and
uncached fetches agree, and in `envCacheHit` the stored entry is served
with `FetchCacheHit` set. -/
theorem C2_cache_wrapper_equivalence_witness :
    Fetch envCacheMiss ⟨0, 0, 0, "zip"⟩ {} "" =
      FetchUncached envCacheMiss ⟨0, 0, 0, "zip"⟩ {} "" ∧
    respondWithKey envCacheHit "k" {} = .ok { notFound := true, fetchCacheHit := true } :=
  ⟨(C2_cache_wrapper_equivalence envCacheMiss
      (fun _ => rfl) (fun _ => ⟨[], rfl⟩) (fun _ _ => rfl)).1 ⟨0, 0, 0, "zip"⟩ {} "",
   (C2_cache_wrapper_equivalence envCacheMiss
      (fun _ => rfl) (fun _ => ⟨[], rfl⟩) (fun _ _ => rfl)).2
     envCacheHit "k" {} [7] { notFound := true } rfl rfl⟩

/-- Counterexample for C2 as stated: in `envCacheDown` the failing
cache lookup makes the cache-aware `Fetch` return an error while the
uncached `Fetch` of the same environment succeeds — a cache failure
both surfaces to the caller and changes the returned response. -/
theorem C2_cache_wrapper_counterexample :
    Fetch envCacheDown ⟨0, 0, 0, "zip"⟩ {} "" =
      .error "error fetching from cache: cache down" ∧
    FetchUncached envCacheDown ⟨0, 0, 0, "zip"⟩ {} "" =
      .ok { fetchCacheHit := false, response := some { body := [] } } ∧
    Fetch envCacheDown ⟨0, 0, 0, "zip"⟩ {} "" ≠
      FetchUncached envCacheDown ⟨0, 0, 0, "zip"⟩ {} "" := by
  refine ⟨rfl, rfl, by decide⟩

/-- C4 (amended): for each of the three tilejson formats, `TileJson`
issues its fetch for exactly the key
`"{prefix}/{hash5}//tilejson/{name}.json"` — with a double slash,
because the format string `"%s/%s/%s"` inserts a separator before
`toHash`, which itself begins with `/`; `hash5` is the first five
characters of the hex MD5 of `"/tilejson/{name}.json"` and the prefix is
the per-request override when non-empty, else the configured default. -/
theorem C4_tilejson_key_shape (md5Hex : String → String) (dp po : String)
    (f : TileJsonFormat) :
    tileJsonKey md5Hex dp po f =
      (if po != "" then po else dp) ++ "/" ++
        (md5Hex ("/tilejson/" ++ f.Name ++ ".json")).take 5 ++
        "//tilejson/" ++ f.Name ++ ".json" ∧
    (∀ (env : S3CacheEnv) (c : Condition),
      TileJson env f c po = respondWithKey env (tileJsonKey env.md5Hex env.defaultPrefix po f) c) := by
  constructor
  · simp only [tileJsonKey, String.append_assoc]
    rfl
  · intro env c
    rfl

/-- Counterexample for C4 as stated: whatever digest
`MD5("/tilejson/mapbox.json")` evaluates to (its real value starts with
`1c115`), the built key contains a double slash where the claim
prescribes `"{prefix}/{hash5}/tilejson/mapbox.json"`. -/
theorem C4_tilejson_key_counterexample :
    tileJsonKey (fun _ => "1c115d4183chash") "p" "" .mvt =
      "p/1c115//tilejson/mapbox.json" ∧
    tileJsonKey (fun _ => "1c115d4183chash") "p" "" .mvt ≠
      "p/1c115/tilejson/mapbox.json" := by
  refine ⟨by decide, by decide⟩

end CachedStorage

end Tapalcatl
